import Mathlib

/-!
Shallow embedding of the session synchronization and lifecycle engine of the
collaborative sculpting server (source: `src/unnamed/part_000`).

Positions are opaque payloads to the core (the spec places geometry out of
scope), so the embedding is parametric in a position type `P`.  A JavaScript
position value that is falsy (`undefined`, `null`) is modelled as `none`;
present positions are `some p`.  Timestamps (`Date.now()`) are naturals in
milliseconds; JavaScript subtraction of timestamps is modelled by subtraction
in `Int`.  Side effects (socket emits, database queries, timer arming) are
recorded as an explicit effect list; the `timer` handle of a session is
represented by `armTimer` effects.
-/

namespace Sculpt

/-- RGB color of the whole mesh (`{ r: 0.5, g: 0.5, b: 0.5 }` by default). -/
structure Color where
  r : ℚ
  g : ℚ
  b : ℚ
deriving DecidableEq, Repr

/-- Session phase: `sculpt` (spec: editing) or `break` (spec: frozen). -/
inductive Status where
  | sculpt
  | brk
deriving DecidableEq, Repr

/-- Mesh State: `{ vertices, indices, color }` from the server. -/
structure ClayState (P : Type) where
  vertices : List P
  indices : List Nat
  color : Color
deriving DecidableEq, Repr

/-- One entry of a `sculpt-batch` message: `{ vertexIndex, position }`, either
field possibly absent. -/
structure VertexUpdate (P : Type) where
  vertexIndex : Option Nat
  position : Option P
deriving DecidableEq, Repr

/-- An entry of `activeSessions`: `{ clayState, lastSave, status, cycleStart,
timer, dbCleared }`.  The `timer` handle is modelled by `armTimer` effects.
`dbCleared` is `none` when the JavaScript object lacks the field. -/
structure Session (P : Type) where
  clayState : ClayState P
  lastSave : Nat
  status : Status
  cycleStart : Nat
  dbCleared : Option Bool
deriving DecidableEq, Repr

/-- Payload built by `getSessionStatusPayload`. -/
structure StatusPayload where
  status : Status
  timeRemainingMs : Nat
  sculptDurationMs : Nat
  breakDurationMs : Nat
deriving DecidableEq, Repr

/-- Observable side effects of the handlers: socket emits, database queries
and timer arming. -/
inductive Effect (P : Type) where
  | broadcastStatus (payload : StatusPayload)
  | emitStatusToSocket (payload : StatusPayload)
  | emitClayStateToSession (st : ClayState P)
  | emitVertexUpdateToOthers (vertexIndex : Nat) (position : P)
  | emitBatchUpdateToOthers (updates : List (VertexUpdate P))
  | dbDelete
  | dbStore (st : ClayState P)
  | armTimer (remainingMs : Nat)
deriving DecidableEq, Repr

/-- Source constant: `SCULPT_DURATION_MS = 5 * 60 * 1000`. -/
def SCULPT_DURATION_MS : Nat := 5 * 60 * 1000

/-- Source constant: `BREAK_DURATION_MS = 60 * 1000`. -/
def BREAK_DURATION_MS : Nat := 60 * 1000

/-- Source: `session.status` selects `SCULPT_DURATION_MS` for sculpt, else `BREAK_DURATION_MS`. -/
def cycleDuration : Status → Nat
  | .sculpt => SCULPT_DURATION_MS
  | .brk => BREAK_DURATION_MS

/-- Function `getSessionStatusPayload` for a present session: status, remaining time
`max(cycleDuration - elapsed, 0)` and both duration constants. -/
def getSessionStatusPayload {P : Type} (now : Nat) (s : Session P) : StatusPayload :=
  { status := s.status
    timeRemainingMs := ((cycleDuration s.status : Int) - ((now : Int) - (s.cycleStart : Int))).toNat
    sculptDurationMs := SCULPT_DURATION_MS
    breakDurationMs := BREAK_DURATION_MS }

/-- Function `createDefaultClay`, parametric in the vertex synthesis `mkV i j` (one
vertex per loop iteration `i`, `j`; the sphere coordinates are geometry the
core treats as opaque).  `indices` are generated exactly as in the source:
for each `i < segments`, `j < segments`, with `a = i * (segments + 1) + j`
and `b = a + segments + 1`, push `a, b, a + 1` then `b, b + 1, a + 1`. -/
def createDefaultClay {P : Type} (mkV : Nat → Nat → P) : ClayState P :=
  let segments := 64
  let vertices := (List.range (segments + 1)).flatMap fun i =>
    (List.range (segments + 1)).map fun j => mkV i j
  let indices := (List.range segments).flatMap fun i =>
    (List.range segments).flatMap fun j =>
      let a := i * (segments + 1) + j
      let b := a + segments + 1
      [a, b, a + 1, b, b + 1, a + 1]
  { vertices := vertices, indices := indices, color := { r := mkRat 1 2, g := mkRat 1 2, b := mkRat 1 2 } }

/-- The body of `scheduleCycleTransition`, abstracted over the transition
check it delegates to (in the source the mutual recursion through the timer
is wall-clock bounded; here the check carries one level less fuel): cancel
the timer, run the eager transition check, and if no transition happened arm
a one-shot timer for `max(cycleDuration - elapsed, 0)`. -/
def scheduleAux {P : Type}
    (check : Nat → Session P → Session P × List (Effect P) × Bool)
    (now : Nat) (s : Session P) : Session P × List (Effect P) :=
  let r := check now s
  if r.2.2 then (r.1, r.2.1)
  else
    let remaining :=
      ((cycleDuration r.1.status : Int) - ((now : Int) - (r.1.cycleStart : Int))).toNat
    (r.1, r.2.1 ++ [.armTimer remaining])

/-- The body of `startBreak`, abstracted over the transition check used when
rescheduling: set `status = break`, `cycleStart = now`,
`dbCleared = dbCleared ?? false`, broadcast the status, reschedule. -/
def startBreakAux {P : Type}
    (check : Nat → Session P → Session P × List (Effect P) × Bool)
    (now : Nat) (s : Session P) : Session P × List (Effect P) :=
  let s1 : Session P :=
    { s with status := .brk, cycleStart := now, dbCleared := some (s.dbCleared.getD false) }
  let r := scheduleAux check now s1
  (r.1, Effect.broadcastStatus (getSessionStatusPayload now s1) :: r.2)

/-- The body of `resetSessionForNextCycle`, abstracted over the transition
check used when rescheduling: replace the clay with a fresh default, set
`lastSave = now`, `status = sculpt`, `cycleStart = now`,
`dbCleared = false`; delete then rewrite the persisted row; emit the new
`clay-state` to the session; broadcast the status; reschedule. -/
def resetAux {P : Type} (mkV : Nat → Nat → P)
    (check : Nat → Session P → Session P × List (Effect P) × Bool)
    (now : Nat) (s : Session P) : Session P × List (Effect P) :=
  let defaultState := createDefaultClay mkV
  let s1 : Session P :=
    { s with clayState := defaultState, lastSave := now, status := .sculpt,
             cycleStart := now, dbCleared := some false }
  let r := scheduleAux check now s1
  (r.1,
    Effect.dbDelete :: Effect.dbStore defaultState ::
      Effect.emitClayStateToSession defaultState ::
        Effect.broadcastStatus (getSessionStatusPayload now s1) :: r.2)

/-- Function `checkAndHandleCycleTransition`: if the current cycle has elapsed
(`elapsed >= cycleDuration`), run `startBreak` or `resetSessionForNextCycle`
and report `true`; otherwise report `false`. -/
def checkAndHandleCycleTransition {P : Type} (mkV : Nat → Nat → P) :
    Nat → Nat → Session P → Session P × List (Effect P) × Bool
  | 0, _, s => (s, [], false)
  | fuel + 1, now, s =>
    if (cycleDuration s.status : Int) ≤ (now : Int) - (s.cycleStart : Int) then
      match s.status with
      | .sculpt =>
        let r := startBreakAux (checkAndHandleCycleTransition mkV fuel) now s
        (r.1, r.2, true)
      | .brk =>
        let r := resetAux mkV (checkAndHandleCycleTransition mkV fuel) now s
        (r.1, r.2, true)
    else (s, [], false)

/-- Function `scheduleCycleTransition` with recursion depth `fuel`. -/
def scheduleCycleTransition {P : Type} (mkV : Nat → Nat → P)
    (fuel now : Nat) (s : Session P) : Session P × List (Effect P) :=
  scheduleAux (checkAndHandleCycleTransition mkV fuel) now s

/-- Function `startBreak` with recursion depth `fuel`. -/
def startBreak {P : Type} (mkV : Nat → Nat → P)
    (fuel now : Nat) (s : Session P) : Session P × List (Effect P) :=
  startBreakAux (checkAndHandleCycleTransition mkV fuel) now s

/-- Function `resetSessionForNextCycle` with recursion depth `fuel`. -/
def resetSessionForNextCycle {P : Type} (mkV : Nat → Nat → P)
    (fuel now : Nat) (s : Session P) : Session P × List (Effect P) :=
  resetAux mkV (checkAndHandleCycleTransition mkV fuel) now s

/-- The body of the batch loop of the `sculpt-batch` handler: if
`vertices[vertexIndex]` is a present entry (entries are position objects,
hence truthy exactly when the index is in bounds) and `position` is truthy,
overwrite that vertex; otherwise skip the entry. -/
def applyUpdate {P : Type} (acc : List P) (u : VertexUpdate P) : List P :=
  match u.vertexIndex, u.position with
  | some i, some p => if i < acc.length then acc.set i p else acc
  | _, _ => acc

/-- The batch loop of the `sculpt-batch` handler: apply every update in
sequence order. -/
def applyBatch {P : Type} (updates : List (VertexUpdate P)) (vs : List P) : List P :=
  updates.foldl applyUpdate vs

/-- The `sculpt-change` handler, per session (the `sessionId` guard and
registry lookup already resolved to `s`).  `vertexIndex === undefined` or a
falsy `position` return immediately; then the eager transition check runs; a
session on break gets a status emit; otherwise an in-bounds vertex is
overwritten, relayed to the other participants, and the debounced persistence
fires when `now - lastSave > 2000`. -/
def sculptChange {P : Type} (mkV : Nat → Nat → P) (fuel now : Nat) (s : Session P)
    (vertexIndex : Option Nat) (position : Option P) : Session P × List (Effect P) :=
  match vertexIndex, position with
  | some i, some pos =>
    let c := checkAndHandleCycleTransition mkV fuel now s
    if c.2.2 then
      (c.1, c.2.1 ++ [.emitStatusToSocket (getSessionStatusPayload now c.1)])
    else
      let s1 := c.1
      if s1.status = .brk then
        (s1, c.2.1 ++ [.emitStatusToSocket (getSessionStatusPayload now s1)])
      else
        if i < s1.clayState.vertices.length then
          let s2 : Session P :=
            { s1 with clayState := { s1.clayState with vertices := s1.clayState.vertices.set i pos } }
          if (2000 : Int) < (now : Int) - (s2.lastSave : Int) then
            ({ s2 with lastSave := now },
              c.2.1 ++ [.emitVertexUpdateToOthers i pos, .dbStore s2.clayState])
          else
            (s2, c.2.1 ++ [.emitVertexUpdateToOthers i pos])
        else (s1, c.2.1)
  | _, _ => (s, [])

/-- The `sculpt-batch` handler, per session.  After the transition check
and the break guard, every valid `{vertexIndex, position}` pair is applied in
sequence order; the relay `vertex-batch-update` carries the original
`updates` array; then the same debounced persistence as for single edits. -/
def sculptBatch {P : Type} (mkV : Nat → Nat → P) (fuel now : Nat) (s : Session P)
    (updates : List (VertexUpdate P)) : Session P × List (Effect P) :=
  let c := checkAndHandleCycleTransition mkV fuel now s
  if c.2.2 then
    (c.1, c.2.1 ++ [.emitStatusToSocket (getSessionStatusPayload now c.1)])
  else
    let s1 := c.1
    if s1.status = .brk then
      (s1, c.2.1 ++ [.emitStatusToSocket (getSessionStatusPayload now s1)])
    else
      let s2 : Session P :=
        { s1 with clayState := { s1.clayState with vertices := applyBatch updates s1.clayState.vertices } }
      if (2000 : Int) < (now : Int) - (s2.lastSave : Int) then
        ({ s2 with lastSave := now },
          c.2.1 ++ [.emitBatchUpdateToOthers updates, .dbStore s2.clayState])
      else
        (s2, c.2.1 ++ [.emitBatchUpdateToOthers updates])

/-- A reference to a face corner in the OBJ export: `Number(indices[i]) + 1`.
`none` stands for the `NaN` produced when the triple runs past the end of
`indices` (a list whose length is not a multiple of 3). -/
def objFaces : List Nat → List (Option Nat × Option Nat × Option Nat)
  | a :: b :: c :: rest => (some (a + 1), some (b + 1), some (c + 1)) :: objFaces rest
  | [a, b] => [(some (a + 1), some (b + 1), none)]
  | [a] => [(some (a + 1), none, none)]
  | [] => []

/-- Render one face reference; `NaN` for an out-of-range read. -/
def refStr : Option Nat → String
  | some n => toString n
  | none => "NaN"

/-- One `f a b c` line of the export. -/
def faceLine (t : Option Nat × Option Nat × Option Nat) : String :=
  "f " ++ refStr t.1 ++ " " ++ refStr t.2.1 ++ " " ++ refStr t.2.2

/-- One `v x y z` line of the export; `vtxStr` renders the three
space-separated coordinates of the opaque position payload. -/
def vertexLine {P : Type} (vtxStr : P → String) (v : P) : String :=
  "v " ++ vtxStr v

/-- The lines accumulated by `clayStateToOBJ`: the two header comments, one
`v` line per vertex, the face header, one `f` line per consecutive index
triple with 1-based references. -/
def clayStateToOBJLines {P : Type} (vtxStr : P → String) (st : ClayState P) : List String :=
  ["# Sculpt Export", "# Vertices"] ++ st.vertices.map (vertexLine vtxStr) ++
    ["# Faces"] ++ (objFaces st.indices).map faceLine

/-- Function `clayStateToOBJ`: join the lines with newlines and append a final newline. -/
def clayStateToOBJ {P : Type} (vtxStr : P → String) (st : ClayState P) : String :=
  String.intercalate "\n" (clayStateToOBJLines vtxStr st) ++ "\n"

/-- Result of the download endpoint (for a session present in the registry):
the phase gate error or the OBJ payload. -/
inductive DownloadResult where
  | notReady
  | ok (objData : String)
deriving DecidableEq, Repr

/-- The `/api/session/:sessionId/download` endpoint for a session present in
the registry: reject unless `status === break`; build the OBJ text; if
`dbCleared` is not set, attempt the database delete (`deleteOk` tells whether
the query succeeds) and mark `dbCleared = true` only on success (a failure is
logged and the download proceeds); reply with the OBJ text. -/
def downloadHandler {P : Type} (vtxStr : P → String) (deleteOk : Bool)
    (s : Session P) : Session P × List (Effect P) × DownloadResult :=
  if s.status ≠ .brk then (s, [], .notReady)
  else
    let objData := clayStateToOBJ vtxStr s.clayState
    if !(s.dbCleared.getD false) then
      if deleteOk then ({ s with dbCleared := some true }, [.dbDelete], .ok objData)
      else (s, [.dbDelete], .ok objData)
    else (s, [], .ok objData)

/-- The `/api/session/:sessionId/reset` endpoint: upsert a fresh default clay
into the database; for an existing session overwrite `clayState`, `lastSave`,
`status`, `cycleStart` (leaving `dbCleared` as it was), otherwise create a new
session object that carries no `dbCleared` field; broadcast the status,
reschedule, and emit the new `clay-state` to the whole session. -/
def resetEndpoint {P : Type} (mkV : Nat → Nat → P) (fuel now : Nat)
    (sess : Option (Session P)) : Session P × List (Effect P) :=
  let defaultState := createDefaultClay mkV
  let s1 : Session P :=
    match sess with
    | some s =>
      { s with clayState := defaultState, lastSave := now, status := .sculpt, cycleStart := now }
    | none =>
      { clayState := defaultState, lastSave := now, status := .sculpt,
        cycleStart := now, dbCleared := none }
  let r := scheduleCycleTransition mkV fuel now s1
  (r.1,
    Effect.dbStore defaultState :: Effect.broadcastStatus (getSessionStatusPayload now s1) ::
      r.2 ++ [Effect.emitClayStateToSession defaultState])

/-- Recognize a persistence write among the effects. -/
def isDbStore {P : Type} : Effect P → Bool
  | .dbStore _ => true
  | _ => false

/-- An inbound edit: a single-vertex `sculpt-change` or a batched
`sculpt-batch`. -/
inductive EditOp (P : Type) where
  | single (vertexIndex : Nat) (position : P)
  | batch (updates : List (VertexUpdate P))
deriving DecidableEq, Repr

/-- Dispatch one inbound edit to its handler. -/
def applyEditOp {P : Type} (mkV : Nat → Nat → P) (fuel now : Nat) (s : Session P) :
    EditOp P → Session P × List (Effect P)
  | .single i p => sculptChange mkV fuel now s (some i) (some p)
  | .batch us => sculptBatch mkV fuel now s us

/-- Run a sequence of timestamped edits — single-vertex or batched — through
the handlers in order, recording the timestamps of the edits whose effect
list contains a persistence write. -/
def runEdits {P : Type} (mkV : Nat → Nat → P) (fuel : Nat) :
    List (Nat × EditOp P) → Session P → Session P × List Nat
  | [], s => (s, [])
  | (t, op) :: rest, s =>
    let r := applyEditOp mkV fuel t s op
    let rr := runEdits mkV fuel rest r.1
    if r.2.any isDbStore then (rr.1, t :: rr.2) else (rr.1, rr.2)

/-- Spec-side view: the 0-indexed triangle list, i.e. the `indices` sequence
grouped into consecutive triples. -/
def chunk3 : List Nat → List (Nat × Nat × Nat)
  | a :: b :: c :: rest => (a, b, c) :: chunk3 rest
  | _ => []

/-- Spec-side view (modelled from the spec words for claim C4): the
"validated batch", i.e. the submitted entries whose index is in bounds for a
mesh of `len` vertices and whose position is present. -/
def specValidatedBatch {P : Type} (len : Nat) (updates : List (VertexUpdate P)) :
    List (VertexUpdate P) :=
  updates.filter fun u =>
    match u.vertexIndex, u.position with
    | some i, some _ => decide (i < len)
    | _, _ => false

/-- The Mesh State invariant: every value in `indices` is a valid vertex
index. -/
def meshInvariant {P : Type} (st : ClayState P) : Prop :=
  ∀ k ∈ st.indices, k < st.vertices.length

/-! ### Helper lemmas about the cycle state machine -/

theorem cycleDuration_pos (st : Status) : 0 < cycleDuration st := by
  cases st <;> simp [cycleDuration, SCULPT_DURATION_MS, BREAK_DURATION_MS]

/-- While the current phase has not elapsed, the eager transition check does
nothing. -/
theorem check_no_transition {P : Type} (mkV : Nat → Nat → P) (fuel now : Nat)
    (s : Session P) (h : (now : Int) - (s.cycleStart : Int) < (cycleDuration s.status : Int)) :
    checkAndHandleCycleTransition mkV fuel now s = (s, [], false) := by
  cases fuel with
  | zero => simp [checkAndHandleCycleTransition]
  | succ fuel =>
    rw [checkAndHandleCycleTransition]
    rw [if_neg (by omega)]

/-- The status payload of a session whose cycle just started. -/
theorem payload_at_cycleStart {P : Type} (now : Nat) (s : Session P)
    (h : s.cycleStart = now) :
    getSessionStatusPayload now s =
      { status := s.status, timeRemainingMs := cycleDuration s.status,
        sculptDurationMs := SCULPT_DURATION_MS, breakDurationMs := BREAK_DURATION_MS } := by
  simp [getSessionStatusPayload, h]

/-- Rescheduling for a session whose cycle just started only arms a fresh
timer for the full phase duration. -/
theorem scheduleAux_at_cycleStart {P : Type} (mkV : Nat → Nat → P) (fuel now : Nat)
    (s : Session P) (h : s.cycleStart = now) :
    scheduleAux (checkAndHandleCycleTransition mkV fuel) now s =
      (s, [.armTimer (cycleDuration s.status)]) := by
  rw [scheduleAux, check_no_transition mkV fuel now s (by
    have := cycleDuration_pos s.status
    omega)]
  simp [h]

/-- The `scheduleCycleTransition` version of `scheduleAux_at_cycleStart`. -/
theorem schedule_at_cycleStart {P : Type} (mkV : Nat → Nat → P) (fuel now : Nat)
    (s : Session P) (h : s.cycleStart = now) :
    scheduleCycleTransition mkV fuel now s = (s, [.armTimer (cycleDuration s.status)]) := by
  rw [scheduleCycleTransition]
  exact scheduleAux_at_cycleStart mkV fuel now s h

/-- Explicit form of `startBreak`: the session keeps its clay, moves to the
break phase at `now`, defaults `dbCleared` to `false` if absent; the effects
are one status broadcast and one timer arming. -/
theorem startBreak_eq {P : Type} (mkV : Nat → Nat → P) (fuel now : Nat) (s : Session P) :
    startBreak mkV fuel now s =
      ({ s with status := .brk, cycleStart := now, dbCleared := some (s.dbCleared.getD false) },
        [.broadcastStatus
            { status := .brk, timeRemainingMs := BREAK_DURATION_MS,
              sculptDurationMs := SCULPT_DURATION_MS, breakDurationMs := BREAK_DURATION_MS },
          .armTimer BREAK_DURATION_MS]) := by
  simp only [startBreak, startBreakAux]
  rw [scheduleAux_at_cycleStart mkV fuel now _ rfl]
  rw [payload_at_cycleStart now _ rfl]
  simp [cycleDuration]

/-- The `startBreakAux` form of `startBreak_eq`, as it appears inside the
transition check. -/
theorem startBreakAux_eq {P : Type} (mkV : Nat → Nat → P) (fuel now : Nat) (s : Session P) :
    startBreakAux (checkAndHandleCycleTransition mkV fuel) now s =
      ({ s with status := .brk, cycleStart := now, dbCleared := some (s.dbCleared.getD false) },
        [.broadcastStatus
            { status := .brk, timeRemainingMs := BREAK_DURATION_MS,
              sculptDurationMs := SCULPT_DURATION_MS, breakDurationMs := BREAK_DURATION_MS },
          .armTimer BREAK_DURATION_MS]) :=
  startBreak_eq mkV fuel now s

/-- Explicit form of `resetSessionForNextCycle`: fresh default clay,
`lastSave = cycleStart = now`, editing phase, `dbCleared = false`; effects:
delete and rewrite the persisted row, emit the fresh clay to the session,
broadcast the status, arm the editing timer. -/
theorem reset_eq {P : Type} (mkV : Nat → Nat → P) (fuel now : Nat) (s : Session P) :
    resetSessionForNextCycle mkV fuel now s =
      ({ s with clayState := createDefaultClay mkV, lastSave := now, status := .sculpt,
                cycleStart := now, dbCleared := some false },
        [.dbDelete, .dbStore (createDefaultClay mkV),
          .emitClayStateToSession (createDefaultClay mkV),
          .broadcastStatus
            { status := .sculpt, timeRemainingMs := SCULPT_DURATION_MS,
              sculptDurationMs := SCULPT_DURATION_MS, breakDurationMs := BREAK_DURATION_MS },
          .armTimer SCULPT_DURATION_MS]) := by
  simp only [resetSessionForNextCycle, resetAux]
  rw [scheduleAux_at_cycleStart mkV fuel now _ rfl]
  rw [payload_at_cycleStart now _ rfl]
  simp [cycleDuration]

/-- The `resetAux` form of `reset_eq`, as it appears inside the transition
check. -/
theorem resetAux_eq {P : Type} (mkV : Nat → Nat → P) (fuel now : Nat) (s : Session P) :
    resetAux mkV (checkAndHandleCycleTransition mkV fuel) now s =
      ({ s with clayState := createDefaultClay mkV, lastSave := now, status := .sculpt,
                cycleStart := now, dbCleared := some false },
        [.dbDelete, .dbStore (createDefaultClay mkV),
          .emitClayStateToSession (createDefaultClay mkV),
          .broadcastStatus
            { status := .sculpt, timeRemainingMs := SCULPT_DURATION_MS,
              sculptDurationMs := SCULPT_DURATION_MS, breakDurationMs := BREAK_DURATION_MS },
          .armTimer SCULPT_DURATION_MS]) :=
  reset_eq mkV fuel now s

/-- Explicit form of the `sculpt-change` handler while the editing phase is
running: an in-bounds edit overwrites the vertex, relays it, and possibly
persists; an out-of-bounds edit is a complete no-op. -/
theorem sculptChange_editing_eq {P : Type} (mkV : Nat → Nat → P)
    (fuel now : Nat) (s : Session P) (i : Nat) (p : P)
    (hst : s.status = Status.sculpt)
    (hel : (now : Int) - (s.cycleStart : Int) < (SCULPT_DURATION_MS : Int)) :
    sculptChange mkV fuel now s (some i) (some p) =
      (if i < s.clayState.vertices.length then
        (if (2000 : Int) < (now : Int) - (s.lastSave : Int) then
          ({ s with clayState := { s.clayState with vertices := s.clayState.vertices.set i p },
                    lastSave := now },
            [.emitVertexUpdateToOthers i p,
              .dbStore { s.clayState with vertices := s.clayState.vertices.set i p }])
        else
          ({ s with clayState := { s.clayState with vertices := s.clayState.vertices.set i p } },
            [.emitVertexUpdateToOthers i p]))
      else (s, [])) := by
  have hc : checkAndHandleCycleTransition mkV fuel now s = (s, [], false) :=
    check_no_transition mkV fuel now s (by rw [hst]; exact hel)
  rw [sculptChange, hc]
  simp [hst]

/-- Explicit form of the `sculpt-batch` handler while the editing phase is
running: the batch is folded over the vertices, the raw batch is relayed, and
the debounced persistence may fire. -/
theorem sculptBatch_editing_eq {P : Type} (mkV : Nat → Nat → P)
    (fuel now : Nat) (s : Session P) (updates : List (VertexUpdate P))
    (hst : s.status = Status.sculpt)
    (hel : (now : Int) - (s.cycleStart : Int) < (SCULPT_DURATION_MS : Int)) :
    sculptBatch mkV fuel now s updates =
      (if (2000 : Int) < (now : Int) - (s.lastSave : Int) then
        ({ s with clayState := { s.clayState with vertices := applyBatch updates s.clayState.vertices },
                  lastSave := now },
          [.emitBatchUpdateToOthers updates,
            .dbStore { s.clayState with vertices := applyBatch updates s.clayState.vertices }])
      else
        ({ s with clayState := { s.clayState with vertices := applyBatch updates s.clayState.vertices } },
          [.emitBatchUpdateToOthers updates])) := by
  have hc : checkAndHandleCycleTransition mkV fuel now s = (s, [], false) :=
    check_no_transition mkV fuel now s (by rw [hst]; exact hel)
  rw [sculptBatch, hc]
  simp [hst]

/-! ### Claim theorems -/

/-- C2: the editing-to-frozen transition (`startBreak`) leaves the session
clay untouched and broadcasts no mesh snapshot, while the frozen-to-editing
transition (`resetSessionForNextCycle`) installs a freshly synthesized
default clay, sets `dbCleared` to `false`, deletes and rewrites the persisted
row, and broadcasts the new clay to the session. -/
theorem cycle_transition_side_effects {P : Type} (mkV : Nat → Nat → P)
    (fuel now : Nat) (s : Session P) :
    (startBreak mkV fuel now s).1.clayState = s.clayState ∧
    (∀ st : ClayState P,
      Effect.emitClayStateToSession st ∉ (startBreak mkV fuel now s).2) ∧
    (resetSessionForNextCycle mkV fuel now s).1.clayState = createDefaultClay mkV ∧
    (resetSessionForNextCycle mkV fuel now s).1.dbCleared = some false ∧
    Effect.dbDelete ∈ (resetSessionForNextCycle mkV fuel now s).2 ∧
    Effect.dbStore (createDefaultClay mkV) ∈ (resetSessionForNextCycle mkV fuel now s).2 ∧
    Effect.emitClayStateToSession (createDefaultClay mkV) ∈
      (resetSessionForNextCycle mkV fuel now s).2 := by
  simp [startBreak_eq, reset_eq]

/-- C10: the explicit reset endpoint leaves the `dbCleared` flag of an
existing session unchanged while replacing its clay, forcing the editing
phase and restarting the cycle; a session entry freshly created by the reset
endpoint carries no `dbCleared` field at all (`none`). -/
theorem resetEndpoint_dbCleared_untouched {P : Type} (mkV : Nat → Nat → P)
    (fuel now : Nat) (s : Session P) :
    ((resetEndpoint mkV fuel now (some s)).1.dbCleared = s.dbCleared ∧
      (resetEndpoint mkV fuel now (some s)).1.clayState = createDefaultClay mkV ∧
      (resetEndpoint mkV fuel now (some s)).1.status = Status.sculpt ∧
      (resetEndpoint mkV fuel now (some s)).1.cycleStart = now) ∧
    ((resetEndpoint mkV fuel now (none : Option (Session P))).1.dbCleared = none ∧
      (resetEndpoint mkV fuel now (none : Option (Session P))).1.clayState =
        createDefaultClay mkV ∧
      (resetEndpoint mkV fuel now (none : Option (Session P))).1.status = Status.sculpt) := by
  constructor
  · rw [resetEndpoint]
    rw [schedule_at_cycleStart mkV fuel now _ rfl]
    exact ⟨rfl, rfl, rfl, rfl⟩
  · rw [resetEndpoint]
    rw [schedule_at_cycleStart mkV fuel now _ rfl]
    exact ⟨rfl, rfl, rfl⟩

/-- C7: the download endpoint rejects with the not-ready error whenever the
session is in the editing phase, and returns the OBJ description of the
session clay whenever the session is in the frozen phase. -/
theorem download_phase_gate {P : Type} (vtxStr : P → String) (deleteOk : Bool)
    (s : Session P) :
    (downloadHandler vtxStr deleteOk { s with status := Status.sculpt }).2.2 =
      DownloadResult.notReady ∧
    (downloadHandler vtxStr deleteOk { s with status := Status.brk }).2.2 =
      DownloadResult.ok (clayStateToOBJ vtxStr s.clayState) := by
  constructor
  · simp [downloadHandler]
  · rw [downloadHandler]
    split
    · simp_all
    · split
      · split <;> rfl
      · rfl

/-- C1: during the editing phase (status `sculpt`, phase not yet elapsed),
a single-vertex edit with an in-bounds index overwrites exactly that vertex
with the given position, leaving every other vertex, the whole `indices`
list, and the color unchanged; with an out-of-bounds index or an absent
position, the Mesh State is left entirely unchanged. -/
theorem sculptChange_single_edit {P : Type} (mkV : Nat → Nat → P)
    (fuel now : Nat) (s : Session P) (i : Nat) (p : P)
    (hst : s.status = Status.sculpt)
    (hel : (now : Int) - (s.cycleStart : Int) < (SCULPT_DURATION_MS : Int)) :
    (i < s.clayState.vertices.length →
      (sculptChange mkV fuel now s (some i) (some p)).1.clayState.vertices =
        s.clayState.vertices.set i p ∧
      ((sculptChange mkV fuel now s (some i) (some p)).1.clayState.vertices)[i]? = some p ∧
      (∀ j, j ≠ i →
        ((sculptChange mkV fuel now s (some i) (some p)).1.clayState.vertices)[j]? =
          (s.clayState.vertices)[j]?) ∧
      (sculptChange mkV fuel now s (some i) (some p)).1.clayState.indices =
        s.clayState.indices ∧
      (sculptChange mkV fuel now s (some i) (some p)).1.clayState.color =
        s.clayState.color) ∧
    (s.clayState.vertices.length ≤ i →
      sculptChange mkV fuel now s (some i) (some p) = (s, [])) ∧
    sculptChange mkV fuel now s (some i) none = (s, []) ∧
    (∀ q : Option P, sculptChange mkV fuel now s none q = (s, [])) := by
  rw [sculptChange_editing_eq mkV fuel now s i p hst hel]
  refine ⟨fun hlt => ?_, fun hge => ?_, rfl, fun q => rfl⟩
  · rw [if_pos hlt]
    refine ⟨?_, ?_, ?_, ?_, ?_⟩
    · split <;> rfl
    · split <;> simp [List.getElem?_set_self hlt]
    · intro j hj
      split <;> simp [List.getElem?_set_ne (fun h => hj h.symm)]
    · split <;> rfl
    · split <;> rfl
  · rw [if_neg (by omega)]

/-- C3: while a session is in the frozen phase (status `break`, break not
yet elapsed), both a single-vertex edit and a batched edit leave the whole
session (in particular its Mesh State) unchanged, relay nothing to the other
participants, and deliver exactly one phase-status message to the submitting
socket. -/
theorem frozen_edit_rejected {P : Type} (mkV : Nat → Nat → P)
    (fuel now : Nat) (s : Session P) (i : Nat) (p : P)
    (updates : List (VertexUpdate P))
    (hst : s.status = Status.brk)
    (hel : (now : Int) - (s.cycleStart : Int) < (BREAK_DURATION_MS : Int)) :
    sculptChange mkV fuel now s (some i) (some p) =
      (s, [.emitStatusToSocket (getSessionStatusPayload now s)]) ∧
    sculptBatch mkV fuel now s updates =
      (s, [.emitStatusToSocket (getSessionStatusPayload now s)]) := by
  have hc : checkAndHandleCycleTransition mkV fuel now s = (s, [], false) :=
    check_no_transition mkV fuel now s (by rw [hst]; exact hel)
  constructor
  · rw [sculptChange, hc]
    simp [hst]
  · rw [sculptBatch, hc]
    simp [hst]

/-! ### Batch application lemmas -/

/-- One step of the batch loop never changes the number of vertices. -/
theorem applyUpdate_length {P : Type} (acc : List P) (u : VertexUpdate P) :
    (applyUpdate acc u).length = acc.length := by
  rw [applyUpdate]
  cases u.vertexIndex <;> cases u.position <;> simp
  split <;> simp

/-- The batch fold never changes the number of vertices. -/
theorem applyBatch_length {P : Type} :
    ∀ (updates : List (VertexUpdate P)) (vs : List P),
      (applyBatch updates vs).length = vs.length
  | [], vs => rfl
  | u :: rest, vs => by
    have h : applyBatch (u :: rest) vs = applyBatch rest (applyUpdate vs u) := rfl
    rw [h, applyBatch_length rest (applyUpdate vs u), applyUpdate_length]

/-- Dropping the invalid entries of a batch does not change the result of the
fold: only the valid entries are applied. -/
theorem applyBatch_filter_valid {P : Type} :
    ∀ (updates : List (VertexUpdate P)) (vs : List P),
      applyBatch updates vs = applyBatch (specValidatedBatch vs.length updates) vs
  | [], vs => rfl
  | u :: rest, vs => by
    have hcons : applyBatch (u :: rest) vs = applyBatch rest (applyUpdate vs u) := rfl
    rw [hcons, specValidatedBatch, List.filter_cons, ← specValidatedBatch]
    cases hvi : u.vertexIndex with
    | none =>
      have hstep : applyUpdate vs u = vs := by
        rw [applyUpdate, hvi]
      rw [hstep]
      cases hp : u.position <;>
        simpa [hvi, hp] using applyBatch_filter_valid rest vs
    | some i =>
      cases hp : u.position with
      | none =>
        have hstep : applyUpdate vs u = vs := by
          rw [applyUpdate, hvi, hp]
        rw [hstep]
        simpa [hvi, hp] using applyBatch_filter_valid rest vs
      | some p =>
        by_cases hlt : i < vs.length
        · have hstep : applyUpdate vs u = vs.set i p := by
            rw [applyUpdate, hvi, hp]
            exact if_pos hlt
          have hlen : (vs.set i p).length = vs.length := by simp
          rw [hstep]
          simp only [decide_eq_true_eq]
          rw [if_pos hlt]
          have hrhs2 : applyBatch (u :: specValidatedBatch vs.length rest) vs =
              applyBatch (specValidatedBatch vs.length rest) (vs.set i p) := by
            have h0 : applyBatch (u :: specValidatedBatch vs.length rest) vs =
                applyBatch (specValidatedBatch vs.length rest) (applyUpdate vs u) := rfl
            rw [h0, hstep]
          rw [hrhs2]
          have := applyBatch_filter_valid rest (vs.set i p)
          rw [hlen] at this
          exact this
        · have hstep : applyUpdate vs u = vs := by
            rw [applyUpdate, hvi, hp]
            exact if_neg hlt
          rw [hstep]
          simp only [decide_eq_true_eq]
          rw [if_neg hlt]
          exact applyBatch_filter_valid rest vs

/-- A later batch entry for an index overwrites whatever earlier entries
wrote there: appending a final valid entry for index `i` makes its position
the final value at `i`. -/
theorem applyBatch_later_entry_wins {P : Type} (updates : List (VertexUpdate P))
    (vs : List P) (i : Nat) (p : P) (hi : i < vs.length) :
    (applyBatch (updates ++ [{ vertexIndex := some i, position := some p }]) vs)[i]? =
      some p := by
  have happ : applyBatch (updates ++ [{ vertexIndex := some i, position := some p }]) vs =
      applyUpdate (applyBatch updates vs) { vertexIndex := some i, position := some p } := by
    rw [applyBatch, List.foldl_append]
    rfl
  have hlen : (applyBatch updates vs).length = vs.length := applyBatch_length updates vs
  rw [happ]
  show (if i < (applyBatch updates vs).length then (applyBatch updates vs).set i p
    else applyBatch updates vs)[i]? = some p
  rw [if_pos (by rw [hlen]; exact hi)]
  exact List.getElem?_set_self (by rw [hlen]; exact hi)

/-- C5: within one freeze phase the download endpoint clears the persisted
copy exactly once.  With `dbCleared` already set, no delete is attempted and
the export is returned; with it unset, exactly one delete is attempted, on
success `dbCleared` is set (so any further download in the phase attempts no
delete), and on failure the export is still returned. -/
theorem download_clears_storage_once {P : Type} (vtxStr : P → String)
    (s : Session P) (hst : s.status = Status.brk) :
    (s.dbCleared = some true →
      (∀ deleteOk : Bool,
        downloadHandler vtxStr deleteOk s =
          (s, [], .ok (clayStateToOBJ vtxStr s.clayState)))) ∧
    (s.dbCleared.getD false = false →
      downloadHandler vtxStr true s =
        ({ s with dbCleared := some true }, [.dbDelete],
          .ok (clayStateToOBJ vtxStr s.clayState)) ∧
      (∀ deleteOk : Bool,
        downloadHandler vtxStr deleteOk { s with dbCleared := some true } =
          ({ s with dbCleared := some true }, [],
            .ok (clayStateToOBJ vtxStr s.clayState))) ∧
      downloadHandler vtxStr false s =
        (s, [.dbDelete], .ok (clayStateToOBJ vtxStr s.clayState))) := by
  constructor
  · intro hcl deleteOk
    rw [downloadHandler, if_neg (by simp [hst]), if_neg (by simp [hcl])]
  · intro hcl
    refine ⟨?_, fun deleteOk => ?_, ?_⟩
    · rw [downloadHandler, if_neg (by simp [hst]), if_pos (by simp [hcl]), if_pos rfl]
    · rw [downloadHandler, if_neg (by simp [hst]), if_neg (by simp)]
    · rw [downloadHandler, if_neg (by simp [hst]), if_pos (by simp [hcl]),
        if_neg (by simp)]

/-- C4 (amended): a batch accepted during the editing phase is applied to the
Mesh State in sequence order with only the valid entries taking effect and
later entries for the same index winning; the message relayed to the other
participants carries the submitted batch exactly as received — including any
invalid entries — not the filtered valid-only batch. -/
theorem sculptBatch_applies_in_order_and_relays_raw {P : Type} (mkV : Nat → Nat → P)
    (fuel now : Nat) (s : Session P) (updates : List (VertexUpdate P))
    (hst : s.status = Status.sculpt)
    (hel : (now : Int) - (s.cycleStart : Int) < (SCULPT_DURATION_MS : Int)) :
    (sculptBatch mkV fuel now s updates).1.clayState.vertices =
      applyBatch updates s.clayState.vertices ∧
    applyBatch updates s.clayState.vertices =
      applyBatch (specValidatedBatch s.clayState.vertices.length updates)
        s.clayState.vertices ∧
    (∀ (us : List (VertexUpdate P)) (i : Nat) (p : P), i < s.clayState.vertices.length →
      (applyBatch (us ++ [{ vertexIndex := some i, position := some p }])
        s.clayState.vertices)[i]? = some p) ∧
    Effect.emitBatchUpdateToOthers updates ∈ (sculptBatch mkV fuel now s updates).2 := by
  refine ⟨?_, applyBatch_filter_valid updates s.clayState.vertices,
    fun us i p hi => applyBatch_later_entry_wins us s.clayState.vertices i p hi, ?_⟩
  · rw [sculptBatch_editing_eq mkV fuel now s updates hst hel]
    split <;> rfl
  · rw [sculptBatch_editing_eq mkV fuel now s updates hst hel]
    split <;> simp

/-! ### Debounced persistence -/

/-- Two persistence writes are separated by more than the 2000ms debounce
window. -/
def debounceSep (a b : Nat) : Prop :=
  (2000 : Int) < (b : Int) - (a : Int)

/-- Bookkeeping facts about one edit — single-vertex or batched — processed
during the editing phase: the phase fields survive, a persistence write
implies the debounce window had passed and `lastSave` becomes the edit time,
and without a write `lastSave` is unchanged. -/
theorem editStep_facts {P : Type} (mkV : Nat → Nat → P)
    (fuel now : Nat) (s : Session P) (op : EditOp P)
    (hst : s.status = Status.sculpt)
    (hel : (now : Int) - (s.cycleStart : Int) < (SCULPT_DURATION_MS : Int)) :
    (applyEditOp mkV fuel now s op).1.status = Status.sculpt ∧
    (applyEditOp mkV fuel now s op).1.cycleStart = s.cycleStart ∧
    ((applyEditOp mkV fuel now s op).2.any isDbStore = true →
      ((2000 : Int) < (now : Int) - (s.lastSave : Int)) ∧
      (applyEditOp mkV fuel now s op).1.lastSave = now) ∧
    ((applyEditOp mkV fuel now s op).2.any isDbStore = false →
      (applyEditOp mkV fuel now s op).1.lastSave = s.lastSave) := by
  cases op with
  | single i p =>
    simp only [applyEditOp]
    rw [sculptChange_editing_eq mkV fuel now s i p hst hel]
    by_cases hi : i < s.clayState.vertices.length
    · rw [if_pos hi]
      split
      · next h =>
        exact ⟨hst, rfl, fun _ => ⟨h, rfl⟩, by intro hf; simp [isDbStore] at hf⟩
      · next h =>
        exact ⟨hst, rfl, by intro ht; simp [isDbStore] at ht, fun _ => rfl⟩
    · rw [if_neg hi]
      exact ⟨hst, rfl, by intro ht; simp at ht, fun _ => rfl⟩
  | batch us =>
    simp only [applyEditOp]
    rw [sculptBatch_editing_eq mkV fuel now s us hst hel]
    split
    · next h =>
      exact ⟨hst, rfl, fun _ => ⟨h, rfl⟩, by intro hf; simp [isDbStore] at hf⟩
    · next h =>
      exact ⟨hst, rfl, by intro ht; simp [isDbStore] at ht, fun _ => rfl⟩

/-- The timestamps at which a run of editing-phase edits — single-vertex and
batched, mixed freely — triggers persistence writes are pairwise separated
by more than the debounce window, and each lies beyond the window measured
from the initial `lastSave`. -/
theorem runEdits_pairwise {P : Type} (mkV : Nat → Nat → P) (fuel : Nat) :
    ∀ (edits : List (Nat × EditOp P)) (s : Session P),
      s.status = Status.sculpt →
      (∀ e ∈ edits, (e.1 : Int) - (s.cycleStart : Int) < (SCULPT_DURATION_MS : Int)) →
      List.Pairwise debounceSep (runEdits mkV fuel edits s).2 ∧
      (∀ t ∈ (runEdits mkV fuel edits s).2,
        (2000 : Int) < (t : Int) - (s.lastSave : Int))
  | [], s, _, _ => by simp [runEdits]
  | (t, op) :: rest, s, hst, hed => by
    obtain ⟨hst1, hcs1, hstore, hnostore⟩ :=
      editStep_facts mkV fuel t s op hst (hed (t, op) (List.mem_cons_self _ _))
    have hed1 : ∀ e ∈ rest,
        (e.1 : Int) - ((applyEditOp mkV fuel t s op).1.cycleStart : Int) <
          (SCULPT_DURATION_MS : Int) := by
      intro e he
      rw [hcs1]
      exact hed e (List.mem_cons_of_mem _ he)
    obtain ⟨ihp, ihb⟩ := runEdits_pairwise mkV fuel rest
      (applyEditOp mkV fuel t s op).1 hst1 hed1
    have hrun : runEdits mkV fuel ((t, op) :: rest) s =
        (let r := applyEditOp mkV fuel t s op
         let rr := runEdits mkV fuel rest r.1
         if r.2.any isDbStore then (rr.1, t :: rr.2) else (rr.1, rr.2)) := rfl
    rw [hrun]
    cases hany : (applyEditOp mkV fuel t s op).2.any isDbStore with
    | true =>
      obtain ⟨hwin, hlast⟩ := hstore hany
      simp only [hany, if_true]
      constructor
      · refine List.Pairwise.cons (fun b hb => ?_) ihp
        have := ihb b hb
        rw [hlast] at this
        exact this
      · intro u hu
        rcases List.mem_cons.mp hu with h | h
        · rw [h]; exact hwin
        · have := ihb u h
          rw [hlast] at this
          unfold debounceSep at *
          omega
    | false =>
      have hlast := hnostore hany
      simp only [hany, if_false]
      refine ⟨ihp, fun u hu => ?_⟩
      have := ihb u hu
      rw [hlast] at this
      exact this

/-- C6: after applying any edit — single-vertex or batched — the full Mesh
State is persisted exactly when `now - lastSave` exceeds 2000ms, in which
case `lastSave` becomes `now`; consequently the persistence timestamps of
any sequence of editing-phase edits, single and batched mixed freely, are
pairwise more than 2000ms apart — at most one write per 2000ms window
however fast the edits arrive. -/
theorem persistence_debounced {P : Type} (mkV : Nat → Nat → P)
    (fuel now : Nat) (s : Session P) (i : Nat) (p : P)
    (updates : List (VertexUpdate P)) (edits : List (Nat × EditOp P))
    (hst : s.status = Status.sculpt)
    (hel : (now : Int) - (s.cycleStart : Int) < (SCULPT_DURATION_MS : Int))
    (hi : i < s.clayState.vertices.length)
    (hedits : ∀ e ∈ edits,
      (e.1 : Int) - (s.cycleStart : Int) < (SCULPT_DURATION_MS : Int)) :
    (((2000 : Int) < (now : Int) - (s.lastSave : Int) →
        Effect.dbStore (sculptChange mkV fuel now s (some i) (some p)).1.clayState ∈
          (sculptChange mkV fuel now s (some i) (some p)).2 ∧
        (sculptChange mkV fuel now s (some i) (some p)).1.lastSave = now) ∧
      (¬ (2000 : Int) < (now : Int) - (s.lastSave : Int) →
        (∀ st : ClayState P,
          Effect.dbStore st ∉ (sculptChange mkV fuel now s (some i) (some p)).2) ∧
        (sculptChange mkV fuel now s (some i) (some p)).1.lastSave = s.lastSave)) ∧
    (((2000 : Int) < (now : Int) - (s.lastSave : Int) →
        Effect.dbStore (sculptBatch mkV fuel now s updates).1.clayState ∈
          (sculptBatch mkV fuel now s updates).2 ∧
        (sculptBatch mkV fuel now s updates).1.lastSave = now) ∧
      (¬ (2000 : Int) < (now : Int) - (s.lastSave : Int) →
        (∀ st : ClayState P,
          Effect.dbStore st ∉ (sculptBatch mkV fuel now s updates).2) ∧
        (sculptBatch mkV fuel now s updates).1.lastSave = s.lastSave)) ∧
    List.Pairwise debounceSep (runEdits mkV fuel edits s).2 := by
  refine ⟨⟨fun hc => ?_, fun hc => ?_⟩, ⟨fun hc => ?_, fun hc => ?_⟩,
    (runEdits_pairwise mkV fuel edits s hst hedits).1⟩
  · rw [sculptChange_editing_eq mkV fuel now s i p hst hel, if_pos hi, if_pos hc]
    simp
  · rw [sculptChange_editing_eq mkV fuel now s i p hst hel, if_pos hi, if_neg hc]
    simp
  · rw [sculptBatch_editing_eq mkV fuel now s updates hst hel, if_pos hc]
    simp
  · rw [sculptBatch_editing_eq mkV fuel now s updates hst hel, if_neg hc]
    simp

/-! ### OBJ export round-trip -/

/-- On an index list of length a multiple of 3, the face references produced
by the export are exactly the consecutive triples, each reference shifted up
by one. -/
theorem objFaces_mul3 :
    ∀ (l : List Nat), l.length % 3 = 0 →
      objFaces l = (chunk3 l).map fun tr =>
        (some (tr.1 + 1), some (tr.2.1 + 1), some (tr.2.2 + 1))
  | [], _ => rfl
  | [_], h => by simp at h
  | [_, _], h => by simp at h
  | a :: b :: c :: rest, h => by
    have hr : rest.length % 3 = 0 := by
      simp only [List.length_cons] at h
      omega
    have h1 : objFaces (a :: b :: c :: rest) =
        (some (a + 1), some (b + 1), some (c + 1)) :: objFaces rest := rfl
    have h2 : chunk3 (a :: b :: c :: rest) = (a, b, c) :: chunk3 rest := rfl
    rw [h1, h2, List.map_cons, objFaces_mul3 rest hr]

/-- C8: for a Mesh State whose index list has length a multiple of 3, the
export emits the headers, one `v` line per vertex, and one `f` line per
consecutive index triple whose three references are the vertex indices each
incremented by 1; a reader taking the face references in order and
subtracting 1 from each recovers exactly the original 0-indexed triangle
list. -/
theorem obj_export_roundtrips_topology {P : Type} (vtxStr : P → String)
    (st : ClayState P) (h3 : st.indices.length % 3 = 0) :
    clayStateToOBJLines vtxStr st =
      ["# Sculpt Export", "# Vertices"] ++ st.vertices.map (vertexLine vtxStr) ++
        ["# Faces"] ++ (chunk3 st.indices).map (fun tr =>
          faceLine (some (tr.1 + 1), some (tr.2.1 + 1), some (tr.2.2 + 1))) ∧
    (objFaces st.indices).map (fun tr =>
        (tr.1.getD 0 - 1, tr.2.1.getD 0 - 1, tr.2.2.getD 0 - 1)) =
      chunk3 st.indices := by
  constructor
  · rw [clayStateToOBJLines, objFaces_mul3 st.indices h3, List.map_map]
    rfl
  · rw [objFaces_mul3 st.indices h3, List.map_map]
    have : ((fun tr : Option Nat × Option Nat × Option Nat =>
        (tr.1.getD 0 - 1, tr.2.1.getD 0 - 1, tr.2.2.getD 0 - 1)) ∘
          fun tr : Nat × Nat × Nat =>
            ((some (tr.1 + 1), some (tr.2.1 + 1), some (tr.2.2 + 1)) :
              Option Nat × Option Nat × Option Nat)) =
        fun tr : Nat × Nat × Nat => (tr.1, tr.2.1, tr.2.2) := by
      funext tr
      simp
    rw [this]
    simp

/-! ### The topology invariant -/

/-- The default sphere mesh has `(64 + 1) * (64 + 1)` vertices. -/
theorem createDefaultClay_length {P : Type} (mkV : Nat → Nat → P) :
    (createDefaultClay mkV).vertices.length = 65 * 65 := by
  simp [createDefaultClay, Function.comp_def, List.sum_replicate]

/-- The freshly synthesized default mesh satisfies the invariant: every
generated index is below the vertex count. -/
theorem createDefaultClay_invariant {P : Type} (mkV : Nat → Nat → P) :
    meshInvariant (createDefaultClay mkV) := by
  intro k hk
  rw [createDefaultClay_length]
  simp only [createDefaultClay, List.mem_flatMap, List.mem_range] at hk
  obtain ⟨i, hi, j, hj, hk⟩ := hk
  simp only [List.mem_cons, List.not_mem_nil, or_false] at hk
  rcases hk with h | h | h | h | h | h <;> omega

/-- Whatever the eager transition check does, the session clay afterwards is
either the clay it started with or a freshly synthesized default. -/
theorem check_clay_or_default {P : Type} (mkV : Nat → Nat → P)
    (fuel now : Nat) (s : Session P) :
    (checkAndHandleCycleTransition mkV fuel now s).1.clayState = s.clayState ∨
    (checkAndHandleCycleTransition mkV fuel now s).1.clayState = createDefaultClay mkV := by
  cases fuel with
  | zero => left; simp [checkAndHandleCycleTransition]
  | succ fuel =>
    rw [checkAndHandleCycleTransition]
    split
    · cases hs : s.status <;> simp [hs, startBreakAux_eq, resetAux_eq]
    · left; rfl

/-- A Mesh State whose vertices were rewritten (same count) but whose
topology is untouched keeps the invariant. -/
theorem meshInvariant_of_same_topology {P : Type} {a b : ClayState P}
    (hinv : meshInvariant a) (hind : b.indices = a.indices)
    (hlen : b.vertices.length = a.vertices.length) : meshInvariant b := by
  intro k hk
  rw [hlen]
  exact hinv k (by rw [← hind]; exact hk)

/-- After the eager transition check the clay still satisfies the invariant
and its topology is either the original or that of a fresh default. -/
theorem clay_after_check_invariant {P : Type} (mkV : Nat → Nat → P)
    (fuel now : Nat) (s : Session P) (hinv : meshInvariant s.clayState) :
    meshInvariant (checkAndHandleCycleTransition mkV fuel now s).1.clayState ∧
    ((checkAndHandleCycleTransition mkV fuel now s).1.clayState.indices =
        s.clayState.indices ∨
      (checkAndHandleCycleTransition mkV fuel now s).1.clayState.indices =
        (createDefaultClay mkV).indices) := by
  rcases check_clay_or_default mkV fuel now s with h | h <;> rw [h]
  · exact ⟨hinv, Or.inl rfl⟩
  · exact ⟨createDefaultClay_invariant mkV, Or.inr rfl⟩

/-- C9: the freshly synthesized default mesh satisfies the topology
invariant (every index below the vertex count), and every operation of the
core — single-vertex edit, batched edit, transition check, the two phase
transitions, explicit reset, export — preserves it; moreover no operation
mutates the `indices` list: afterwards it is either the original list or the
list of a freshly constructed default mesh. -/
theorem operations_preserve_topology_invariant {P : Type} (mkV : Nat → Nat → P)
    (vtxStr : P → String) :
    meshInvariant (createDefaultClay mkV) ∧
    (∀ (fuel now : Nat) (s : Session P) (vi : Option Nat) (pos : Option P),
      meshInvariant s.clayState →
      meshInvariant (sculptChange mkV fuel now s vi pos).1.clayState ∧
      ((sculptChange mkV fuel now s vi pos).1.clayState.indices = s.clayState.indices ∨
        (sculptChange mkV fuel now s vi pos).1.clayState.indices =
          (createDefaultClay mkV).indices)) ∧
    (∀ (fuel now : Nat) (s : Session P) (us : List (VertexUpdate P)),
      meshInvariant s.clayState →
      meshInvariant (sculptBatch mkV fuel now s us).1.clayState ∧
      ((sculptBatch mkV fuel now s us).1.clayState.indices = s.clayState.indices ∨
        (sculptBatch mkV fuel now s us).1.clayState.indices =
          (createDefaultClay mkV).indices)) ∧
    (∀ (fuel now : Nat) (s : Session P), meshInvariant s.clayState →
      meshInvariant (checkAndHandleCycleTransition mkV fuel now s).1.clayState) ∧
    (∀ (fuel now : Nat) (s : Session P), meshInvariant s.clayState →
      meshInvariant (startBreak mkV fuel now s).1.clayState ∧
      (startBreak mkV fuel now s).1.clayState.indices = s.clayState.indices) ∧
    (∀ (fuel now : Nat) (s : Session P),
      meshInvariant (resetSessionForNextCycle mkV fuel now s).1.clayState ∧
      (resetSessionForNextCycle mkV fuel now s).1.clayState = createDefaultClay mkV) ∧
    (∀ (fuel now : Nat) (sess : Option (Session P)),
      meshInvariant (resetEndpoint mkV fuel now sess).1.clayState ∧
      (resetEndpoint mkV fuel now sess).1.clayState = createDefaultClay mkV) ∧
    (∀ (deleteOk : Bool) (s : Session P), meshInvariant s.clayState →
      meshInvariant (downloadHandler vtxStr deleteOk s).1.clayState ∧
      (downloadHandler vtxStr deleteOk s).1.clayState.indices = s.clayState.indices) := by
  refine ⟨createDefaultClay_invariant mkV, ?_, ?_, ?_, ?_, ?_, ?_, ?_⟩
  · intro fuel now s vi pos hinv
    obtain ⟨hack, hackind⟩ := clay_after_check_invariant mkV fuel now s hinv
    match vi, pos with
    | none, q => exact ⟨hinv, Or.inl rfl⟩
    | some i, none => exact ⟨hinv, Or.inl rfl⟩
    | some i, some p =>
      simp only [sculptChange]
      split
      · exact ⟨hack, hackind⟩
      · split
        · exact ⟨hack, hackind⟩
        · split
          · split
            · exact ⟨meshInvariant_of_same_topology hack rfl (by simp), hackind⟩
            · exact ⟨meshInvariant_of_same_topology hack rfl (by simp), hackind⟩
          · exact ⟨hack, hackind⟩
  · intro fuel now s us hinv
    obtain ⟨hack, hackind⟩ := clay_after_check_invariant mkV fuel now s hinv
    simp only [sculptBatch]
    split
    · exact ⟨hack, hackind⟩
    · split
      · exact ⟨hack, hackind⟩
      · split
        · exact ⟨meshInvariant_of_same_topology hack rfl (by simp [applyBatch_length]),
            hackind⟩
        · exact ⟨meshInvariant_of_same_topology hack rfl (by simp [applyBatch_length]),
            hackind⟩
  · intro fuel now s hinv
    exact (clay_after_check_invariant mkV fuel now s hinv).1
  · intro fuel now s hinv
    rw [startBreak_eq]
    exact ⟨hinv, rfl⟩
  · intro fuel now s
    rw [reset_eq]
    exact ⟨createDefaultClay_invariant mkV, rfl⟩
  · intro fuel now sess
    cases sess with
    | some s =>
      rw [resetEndpoint]
      rw [schedule_at_cycleStart mkV fuel now _ rfl]
      exact ⟨createDefaultClay_invariant mkV, rfl⟩
    | none =>
      rw [resetEndpoint]
      rw [schedule_at_cycleStart mkV fuel now _ rfl]
      exact ⟨createDefaultClay_invariant mkV, rfl⟩
  · intro deleteOk s hinv
    rw [downloadHandler]
    split
    · exact ⟨hinv, rfl⟩
    · split
      · split
        · exact ⟨hinv, rfl⟩
        · exact ⟨hinv, rfl⟩
      · exact ⟨hinv, rfl⟩

/-! ### Concrete instances for the witnesses -/

/-- A concrete vertex synthesis over `P = Nat` (the payload is opaque to the
core, so any value works). -/
def mkVW : Nat → Nat → Nat := fun i j => i * 1000 + j

/-- A small concrete Mesh State: three vertices, one triangle. -/
def clayW : ClayState Nat :=
  { vertices := [10, 20, 30], indices := [0, 1, 2],
    color := { r := mkRat 1 2, g := mkRat 1 2, b := mkRat 1 2 } }

/-- A session in the editing phase, cycle started at time 0. -/
def sessEdit : Session Nat :=
  { clayState := clayW, lastSave := 0, status := .sculpt, cycleStart := 0,
    dbCleared := some false }

/-- A session in the frozen phase, break started at time 0. -/
def sessBrk : Session Nat :=
  { clayState := clayW, lastSave := 0, status := .brk, cycleStart := 0,
    dbCleared := some false }

/-- A concrete run of four edits, single-vertex and batched mixed: times 0,
1000, 2500, 5000; the write at 2500 is triggered by a batch. -/
def editsW : List (Nat × EditOp Nat) :=
  [(0, .single 0 5),
    (1000, .batch [{ vertexIndex := some 1, position := some 6 }]),
    (2500, .batch [{ vertexIndex := some 0, position := some 7 }]),
    (5000, .single 1 8)]

/-! ### Witnesses and counterexample -/

/-- Witness for C1: editing vertex 1 of the concrete session yields exactly
`[10, 99, 30]` with the topology intact, and an out-of-bounds index or an
absent position is a complete no-op. -/
theorem sculptChange_single_edit_witness :
    (sculptChange mkVW 1 5 sessEdit (some 1) (some 99)).1.clayState.vertices =
      [10, 99, 30] ∧
    (sculptChange mkVW 1 5 sessEdit (some 1) (some 99)).1.clayState.indices = [0, 1, 2] ∧
    sculptChange mkVW 1 5 sessEdit (some 7) (some 99) = (sessEdit, []) ∧
    sculptChange mkVW 1 5 sessEdit (some 1) none = (sessEdit, []) := by
  have h := sculptChange_single_edit mkVW 1 5 sessEdit 1 99 rfl (by decide)
  have h7 := sculptChange_single_edit mkVW 1 5 sessEdit 7 99 rfl (by decide)
  refine ⟨?_, ?_, h7.2.1 (by decide), h.2.2.1⟩
  · rw [(h.1 (by decide)).1]
    decide
  · rw [(h.1 (by decide)).2.2.2.1]
    decide

/-- Witness for C3: an edit submitted to the concrete frozen session changes
nothing and yields exactly one status message. -/
theorem frozen_edit_rejected_witness :
    sculptChange mkVW 1 5 sessBrk (some 0) (some 7) =
      (sessBrk, [.emitStatusToSocket
        { status := .brk, timeRemainingMs := 59995,
          sculptDurationMs := 300000, breakDurationMs := 60000 }]) ∧
    sculptBatch mkVW 1 5 sessBrk [{ vertexIndex := some 0, position := some 7 }] =
      (sessBrk, [.emitStatusToSocket
        { status := .brk, timeRemainingMs := 59995,
          sculptDurationMs := 300000, breakDurationMs := 60000 }]) := by
  have h := frozen_edit_rejected mkVW 1 5 sessBrk 0 7
    [{ vertexIndex := some 0, position := some 7 }] rfl (by decide)
  exact ⟨by rw [h.1]; decide, by rw [h.2]; decide⟩

/-- Witness for the amended C4: the concrete batch is applied in order with
later entries winning and invalid ones skipped, and the raw batch is
relayed. -/
theorem sculptBatch_applies_in_order_witness :
    (sculptBatch mkVW 1 5 sessEdit
        [{ vertexIndex := some 0, position := some 7 },
          { vertexIndex := some 9, position := some 8 },
          { vertexIndex := some 0, position := some 42 }]).1.clayState.vertices =
      [42, 20, 30] ∧
    Effect.emitBatchUpdateToOthers
        [{ vertexIndex := some 0, position := some 7 },
          { vertexIndex := some 9, position := some 8 },
          { vertexIndex := some 0, position := some 42 }] ∈
      (sculptBatch mkVW 1 5 sessEdit
        [{ vertexIndex := some 0, position := some 7 },
          { vertexIndex := some 9, position := some 8 },
          { vertexIndex := some 0, position := some 42 }]).2 := by
  have h := sculptBatch_applies_in_order_and_relays_raw mkVW 1 5 sessEdit
    [{ vertexIndex := some 0, position := some 7 },
      { vertexIndex := some 9, position := some 8 },
      { vertexIndex := some 0, position := some 42 }] rfl (by decide)
  exact ⟨by rw [h.1]; decide, h.2.2.2⟩

/-- Counterexample to C4 as stated: on the concrete session with 3 vertices,
a batch with one valid and one out-of-bounds entry is relayed as submitted —
the relayed message is not the validated-only batch. -/
theorem sculptBatch_relay_counterexample :
    (sculptBatch mkVW 1 5 sessEdit
        [{ vertexIndex := some 0, position := some 7 },
          { vertexIndex := some 9, position := some 8 }]).2 =
      [Effect.emitBatchUpdateToOthers
        [{ vertexIndex := some 0, position := some 7 },
          { vertexIndex := some 9, position := some 8 }]] ∧
    specValidatedBatch sessEdit.clayState.vertices.length
        [{ vertexIndex := some 0, position := some 7 },
          { vertexIndex := some 9, position := some 8 }] =
      [{ vertexIndex := some 0, position := some 7 }] ∧
    Effect.emitBatchUpdateToOthers
        [{ vertexIndex := (some 0 : Option Nat), position := (some 7 : Option Nat) }] ∉
      (sculptBatch mkVW 1 5 sessEdit
        [{ vertexIndex := some 0, position := some 7 },
          { vertexIndex := some 9, position := some 8 }]).2 := by
  decide

/-- Witness for C5: the first download of the concrete frozen session issues
exactly one delete and sets the flag; the next download in the same phase
issues none. -/
theorem download_clears_storage_once_witness :
    downloadHandler (fun n : Nat => toString n) true sessBrk =
      ({ sessBrk with dbCleared := some true }, [.dbDelete],
        .ok (clayStateToOBJ (fun n : Nat => toString n) sessBrk.clayState)) ∧
    downloadHandler (fun n : Nat => toString n) true
        { sessBrk with dbCleared := some true } =
      ({ sessBrk with dbCleared := some true }, [],
        .ok (clayStateToOBJ (fun n : Nat => toString n) sessBrk.clayState)) := by
  have h := download_clears_storage_once (fun n : Nat => toString n) sessBrk rfl
  exact ⟨(h.2 (by decide)).1, (h.2 (by decide)).2.1 true⟩

/-- Witness for C6: running the concrete mixed single/batch edit sequence
persists exactly at times 2500 (a batched edit) and 5000 (a single-vertex
edit), which are more than 2000ms apart. -/
theorem persistence_debounced_witness :
    List.Pairwise debounceSep (runEdits mkVW 1 editsW sessEdit).2 ∧
    (runEdits mkVW 1 editsW sessEdit).2 = [2500, 5000] := by
  have h := persistence_debounced mkVW 1 5 sessEdit 0 5
    [{ vertexIndex := some 0, position := some 9 }] editsW rfl (by decide) (by decide)
    (by decide)
  exact ⟨h.2.2, by decide⟩

/-- Witness for C8: the concrete one-triangle mesh round-trips: subtracting 1
from the exported face references recovers `[(0, 1, 2)]`. -/
theorem obj_export_roundtrips_topology_witness :
    (objFaces clayW.indices).map (fun tr =>
        (tr.1.getD 0 - 1, tr.2.1.getD 0 - 1, tr.2.2.getD 0 - 1)) = chunk3 clayW.indices ∧
    chunk3 clayW.indices = [(0, 1, 2)] := by
  have h := obj_export_roundtrips_topology (fun n : Nat => toString n) clayW (by decide)
  exact ⟨h.2, by decide⟩

/-- Witness for C9: the invariant survives a concrete single-vertex edit. -/
theorem operations_preserve_topology_invariant_witness :
    meshInvariant (sculptChange mkVW 1 5 sessEdit (some 1) (some 99)).1.clayState := by
  have h := operations_preserve_topology_invariant mkVW (fun n : Nat => toString n)
  exact (h.2.1 1 5 sessEdit (some 1) (some 99) (by unfold meshInvariant; decide)).1

end Sculpt
